import Mathlib

/-!
Formal model of the travel-time mapping, moveout correction, ray tracing and
time-to-depth conversion routines of `seispy/rfcorrect.py`.

Modelling conventions, used throughout:
* machine floats are modelled by rationals `ℚ`; a floating-point NaN is
  modelled by `none` in `Option ℚ` (abbreviated `QN`), and arithmetic on `QN`
  propagates `none` the way numpy propagates NaN;
* values of the 1-D velocity-model queries that may carry an imaginary
  component (the evanescence sentinel of the source) are modelled by the pair
  type `Cpx` of real and imaginary part;
* in the curve types consumed by `moveoutcorrect_ref` and `time2depth`, an
  entry `none` encodes the sentinel the source tests for
  (`np.imag(...) == 1`), and `some t` a purely real value; the general
  complex case is analysed separately through `imag2nan`;
* scipy's `interp1d` sorts its abscissae with a stable argsort before
  interpolating; the model omits that preprocessing step and the theorems
  below are stated for sorted abscissae, on which the argsort is the
  identity;
* rational division by zero is total (`q / 0 = 0`) in Lean; each place where
  the source could divide by zero is either guarded explicitly (the guard
  yields `none`, the model of a non-finite float) or unreachable under the
  hypotheses of the theorems;
* the velocity models (`DepModel` of `seispy.utils`, `Mod3DPerturbation`) and
  the geographic helpers of `seispy.geo` are external collaborators whose
  code is not part of this repository slice; following the specification of
  the system they are modelled as parameters (query functions or
  pre-computed query results) of the definitions below.
-/

namespace Seispy

/-! ## Basic value models -/

/-- A NaN-aware float: `none` models NaN. -/
abbrev QN := Option ℚ

/-- NaN-propagating addition. -/
def qnAdd : QN → QN → QN
  | some a, some b => some (a + b)
  | _, _ => none

/-- NaN-propagating subtraction. -/
def qnSub : QN → QN → QN
  | some a, some b => some (a - b)
  | _, _ => none

/-- NaN-propagating multiplication. -/
def qnMul : QN → QN → QN
  | some a, some b => some (a * b)
  | _, _ => none

/-- NaN-propagating division; a zero denominator yields `none`, the model of
a non-finite float. -/
def qnDiv : QN → QN → QN
  | some a, some b => if b = 0 then none else some (a / b)
  | _, _ => none

/-- A complex value as produced by the velocity-model queries: real and
imaginary part.  A NaN entry of a complex array is modelled by `none` in
`Option Cpx` (its imaginary part reads as `0` under `np.imag`, hence it never
matches the sentinel test `np.imag(...) == 1`). -/
structure Cpx where
  re : ℚ
  im : ℚ
deriving DecidableEq

/-- `np.where(p(arr))[0]` is nonempty with first element `k`:
`firstIdx p arr = some k` is the index of the first element satisfying `p`,
`none` if there is none. -/
def firstIdx {α : Type} (p : α → Bool) : List α → Option ℕ
  | [] => none
  | x :: xs => if p x then some 0 else (firstIdx p xs).map (· + 1)

/-- `np.where(p(arr))[0]` in full: the list of all indices whose element
satisfies `p`, in order.  (`firstIdx p arr` is its first element.) -/
def npWhere {α : Type} (p : α → Bool) (l : List α) : List ℕ :=
  (List.range l.length).filter (fun i =>
    match l[i]? with
    | some x => p x
    | none => false)

/-- The element test of the sentinel search `np.where(np.imag(arr) == 1)`:
true exactly on entries whose imaginary part equals `1` (a NaN entry has
imaginary part `0` under `np.imag`). -/
def isImagOne : Option Cpx → Bool
  | some c => decide (c.im = 1)
  | none => false

/-- Model of `_imag2nan` (rfcorrect.py lines 319-323): find the first index
whose imaginary part equals `1`, and overwrite that index and every deeper
one with NaN. -/
def imag2nan (arr : List (Option Cpx)) : List (Option Cpx) :=
  match firstIdx isImagOne arr with
  | none => arr
  | some k => arr.take k ++ List.replicate (arr.length - k) none

/-! ## scipy interpolation model -/

/-- `np.arange(start, stop, step)` for a positive step: the values
`start + k·step` while strictly below `stop`.  (The source only uses positive
steps, the sampling interval; a non-positive step yields the empty list.) -/
def arangeQ (start stop step : ℚ) : List ℚ :=
  if step ≤ 0 then []
  else (List.range (max 0 ⌈(stop - start) / step⌉).toNat).map
    (fun k => start + (k : ℚ) * step)

/-- `np.arange(a, b)` over integers. -/
def arangeZ (a b : ℤ) : List ℤ :=
  (List.range (max 0 (b - a)).toNat).map (fun k => a + (k : ℤ))

/-- Python `int(x)`: truncation toward zero. -/
def pyInt (q : ℚ) : ℤ := if q < 0 then -⌊-q⌋ else ⌊q⌋

/-- `np.searchsorted(xs, q)` (side `left`) on an ascending array whose NaN
entries sort last: the number of entries strictly below `q` (a comparison
with NaN is false). -/
def searchCount (xs : List QN) (q : ℚ) : ℕ :=
  xs.countP (fun x => match x with | some v => decide (v < q) | none => false)

/-- One query of scipy's `interp1d(xs, ys, bounds_error=False)` (linear kind,
NaN fill): out-of-range queries yield NaN, otherwise linear interpolation on
the enclosing segment, `y_lo + (q - x_lo)·(y_hi - y_lo)/(x_hi - x_lo)`.  A
degenerate segment (equal abscissae, whose slope is non-finite in numpy)
yields `none`. -/
def interpAt (xs : List QN) (ys : List ℚ) (q : ℚ) : QN :=
  let below := match xs.head? with
    | some (some x0) => decide (q < x0)
    | _ => false
  let above := match xs.getLast? with
    | some (some xl) => decide (xl < q)
    | _ => false
  if below || above then none
  else
    let pos := min (max (searchCount xs q) 1) (xs.length - 1)
    match xs[pos - 1]?, xs[pos]?, ys[pos - 1]?, ys[pos]? with
    | some (some xlo), some (some xhi), some ylo, some yhi =>
        if xhi = xlo then none
        else some (ylo + (q - xlo) * ((yhi - ylo) / (xhi - xlo)))
    | _, _, _, _ => none

/-- Calling scipy's `interp1d(xs, ys, bounds_error=False)` on a list of query
points.  scipy refuses mismatched lengths and fewer than two data points. -/
def interp1dApply (xs : List QN) (ys : List ℚ) (qs : List ℚ) :
    Except String (List QN) :=
  if xs.length ≠ ys.length then .error "x and y arrays must be equal in length"
  else if xs.length < 2 then .error "x and y arrays must have at least 2 entries"
  else .ok (qs.map (interpAt xs ys))

/-- Calling scipy's `interp1d(xs, ys)` with the default `bounds_error=True`:
any query outside the data range raises. -/
def interp1dStrict (xs ys qs : List ℚ) : Except String (List QN) :=
  if xs.length ≠ ys.length then .error "x and y arrays must be equal in length"
  else if xs.length < 2 then .error "x and y arrays must have at least 2 entries"
  else if qs.any (fun q => match xs.head? with
      | some x0 => decide (q < x0) | none => false) then
    .error "A value in x_new is below the interpolation range."
  else if qs.any (fun q => match xs.getLast? with
      | some xl => decide (xl < q) | none => false) then
    .error "A value in x_new is above the interpolation range."
  else .ok (qs.map (interpAt (xs.map some) ys))

/-- One query of scipy's
`interp1d(xs, ys, bounds_error=False, fill_value=(np.nan, ys[-1]))` as used
by `xps_tps_map`: queries below the data range yield NaN, queries above it
yield the last data value, in-range queries are linearly interpolated. -/
def interpTupleLast (xs ys : List ℚ) (q : ℚ) : QN :=
  let below := match xs.head? with
    | some x0 => decide (q < x0)
    | none => false
  let above := match xs.getLast? with
    | some xl => decide (xl < q)
    | none => false
  if below then none
  else if above then (ys.getLast?).map id
  else interpAt (xs.map some) ys q

/-! ## moveoutcorrect_ref -/

/-- Python array indexing with negative wrap-around (`arr[-1]` is the last
element); `none` for an index out of range. -/
def pyGet {α : Type} (l : List α) (k : ℤ) : Option α :=
  let j : ℤ := if k < 0 then (l.length : ℤ) + k else k
  if j < 0 then none else l[j.toNat]?

/-- Reading a possibly-NaN entry of a curve at a Python index. -/
def pyGetQN (l : List QN) (k : ℤ) : QN := (pyGet l k).join

/-- `np.where(refaxis <= tps[i, 0:stop])[0]`, first element: the first index
below `stop` whose curve value is at least `t` (an evanescent sentinel entry
never satisfies the comparison). -/
def firstCross (row : List QN) (stop : ℕ) (t : ℚ) : Option ℕ :=
  firstIdx (fun x => match x with | some v => decide (t ≤ v) | none => false)
    (row.take stop)

/-- The sample-mapping loop of `moveoutcorrect_ref` (lines 368-374): for each
output sample index `j` past the pre-event window, find the first crossing of
the event curve at the sample time `j·sampling - shift`; an empty search
breaks the loop, otherwise the mapped reference-axis sample
`ref[i0-1] + (t - tps[i0-1])·(ref[i0]-ref[i0-1])/(tps[i0]-tps[i0-1])` is
appended (indices `i0 - 1` follow Python's negative wrap-around). -/
def newaxisLoop (row ref : List QN) (stop : ℕ) (sampling shift : ℚ) :
    List ℤ → List QN
  | [] => []
  | j :: rest =>
    let refaxis : ℚ := (j : ℚ) * sampling - shift
    match firstCross row stop refaxis with
    | none => []
    | some i0 =>
      let ratio := qnDiv (qnSub (pyGetQN ref (i0 : ℤ)) (pyGetQN ref ((i0 : ℤ) - 1)))
                         (qnSub (pyGetQN row (i0 : ℤ)) (pyGetQN row ((i0 : ℤ) - 1)))
      let v := qnAdd (pyGetQN ref ((i0 : ℤ) - 1))
                     (qnMul (qnSub (some refaxis) (pyGetQN row ((i0 : ℤ) - 1))) ratio)
      v :: newaxisLoop row ref stop sampling shift rest

/-- The full mapped time axis of one event (lines 361-374): the pre-event
portion `np.arange(-shift, 0, sampling)` followed by `0`, then the mapped
samples produced by the crossing loop over
`np.arange(int(shift/sampling + 1), rflength)`. -/
def buildNewaxis (row ref : List QN) (stop : ℕ) (sampling shift : ℚ)
    (rflength : ℕ) : List QN :=
  ((arangeQ (-shift) 0 sampling).map some ++ [some 0]) ++
    newaxisLoop row ref stop sampling shift
      (arangeZ (pyInt (shift / sampling + 1)) (rflength : ℤ))

/-- Body of the per-event loop of `moveoutcorrect_ref` (lines 367-386),
after `StopIndex` has been resolved to the scalar cut position `stop`. -/
def moCorrectEventBody (row ref : List QN) (dataRow : List ℚ)
    (sampling shift : ℚ) (rflength : ℕ) (stop : ℕ) :
    Except String (List QN × ℤ) :=
  let endIndex : ℤ := (stop : ℤ) - 1
  let newaxis := buildNewaxis row ref stop sampling shift rflength
  let endidx := newaxis.length
  let xnew := (List.range rflength).map (fun k => (k : ℚ) * sampling - shift)
  match interp1dApply newaxis (dataRow.take endidx) xnew with
  | .error e => .error e
  | .ok tempdata =>
    let newdata : List QN :=
      match firstIdx Option.isNone tempdata with
      | none => tempdata
      | some e0 => (tempdata.drop 1).take (e0 - 1) ++
          (dataRow.drop (endidx + 1)).map some
    let final : List QN :=
      if newdata.length < rflength then
        newdata ++ List.replicate (rflength - newdata.length) (some 0)
      else newdata.take rflength
    .ok (final, endIndex)

/-- Correction of one event's trace (`moveoutcorrect_ref`, lines 360-386).
`StopIndex = np.where(np.imag(tps) == 1)[0]` is an **array**; when it is
empty it is replaced by the depth grid length `depN` (lines 363-365).  Line
366 then assigns `StopIndex - 1` into the scalar slot `EndIndex[i]`: this
succeeds for the integer (no-sentinel) case and, by size-1 broadcasting,
for a curve with exactly one sentinel sample, but a curve with two or more
sentinel samples makes numpy raise a ValueError before the mapping loop
runs.  The line-370 slice `tps[i, 0:StopIndex]` likewise accepts the
size-1 array as a scalar bound. -/
def moCorrectEvent (row ref : List QN) (dataRow : List ℚ) (depN : ℕ)
    (sampling shift : ℚ) (rflength : ℕ) : Except String (List QN × ℤ) :=
  match npWhere Option.isNone row with
  | [] => moCorrectEventBody row ref dataRow sampling shift rflength depN
  | [k] => moCorrectEventBody row ref dataRow sampling shift rflength k
  | _ => .error "setting an array element with a sequence."

/-- The per-event loop of `moveoutcorrect_ref`: events are processed in
order; a Python exception raised for one event aborts the whole call. -/
def moRows (ref : List QN) (depN : ℕ) (sampling shift : ℚ) (rflength : ℕ) :
    List (List QN × List ℚ) → Except String (List (List QN) × List ℤ)
  | [] => .ok ([], [])
  | (row, dataRow) :: rest =>
    match moCorrectEvent row ref dataRow depN sampling shift rflength with
    | .error e => .error e
    | .ok (nd, ei) =>
      match moRows ref depN sampling shift rflength rest with
      | .error e => .error e
      | .ok (nds, eis) => .ok (nd :: nds, ei :: eis)

/-- Model of `moveoutcorrect_ref` (rfcorrect.py lines 326-387).  The
per-event travel-time-difference curves `tps` and the reference curve `ref`
are produced by `xps_tps_map` from the external 1-D velocity model; following
the system specification they enter here as inputs (curves over the depth
grid of length `depN`).  Amplitude matrices are per-event rows of trace
length `rflength`. -/
def moveoutcorrect_ref (tps : List (List QN)) (ref : List QN)
    (data : List (List ℚ)) (depN : ℕ) (sampling shift : ℚ) (rflength : ℕ) :
    Except String (List (List QN) × List ℤ) :=
  moRows ref depN sampling shift rflength (tps.zip data)

/-! ## xps_tps_map -/

/-- Model of `xps_tps_map` (rfcorrect.py lines 460-477).  The `DepModel`
queries `radius_s`, `tpds` and `raylength` belong to the external 1-D
velocity model; following the system specification they enter as
pre-computed query results (`x_s`, `x_p`, `tps` and, when `is_raylen` is
set, the two ray-length curves), aligned with the elevation-adjusted depth
grid `depths_elev`.  If the station elevation is non-zero every curve is
re-interpolated onto the unadjusted grid `depths` with
`fill_value=(np.nan, last)`; otherwise the raw curves are returned
unchanged.  The returned tuple is `(tps, x_s, x_p, raylengths?)`. -/
def xps_tps_map (elevation : ℚ) (depths depths_elev : List ℚ)
    (x_s x_p tps rls rlp : List ℚ) (is_raylen : Bool) :
    List QN × List QN × List QN × Option (List QN × List QN) :=
  if elevation ≠ 0 then
    (depths.map (interpTupleLast depths_elev tps),
     depths.map (interpTupleLast depths_elev x_s),
     depths.map (interpTupleLast depths_elev x_p),
     if is_raylen then
       some (depths.map (interpTupleLast depths_elev rls),
             depths.map (interpTupleLast depths_elev rlp))
     else none)
  else
    (tps.map some, x_s.map some, x_p.map some,
     if is_raylen then some (rls.map some, rlp.map some) else none)

/-! ## time2depth -/

/-- Is entry `i` of the depth axis defined (not NaN)? -/
def entrySome (l : List QN) (i : ℕ) : Bool :=
  match l[i]? with
  | some (some _) => true
  | _ => false

/-- `np.where(np.logical_not(np.isnan(depthAxis)))[0]`: the indices of the
defined entries, in order. -/
def idxWhereSome (l : List QN) : List ℕ :=
  (List.range l.length).filter (entrySome l)

/-- `np.max` on a list of indices (the source only takes it on a nonempty
list). -/
def maxNat (l : List ℕ) : ℕ := l.foldr max 0

/-- First stage of a `time2depth` event (lines 631-639).
`StopIndex = np.where(np.imag(TempTpds) == 1)[0]` is an **array**.  When it
is empty the whole curve is interpolated and `EndIndex` is
`YAxisRange.size - 1`.  Otherwise line 638 computes the scalar
`EndIndex = StopIndex[0] - 1`, and line 639 slices
`TempTpds[0:StopIndex]` with the array itself as the slice bound: for a
curve with exactly one sentinel sample the size-1 array is accepted as a
scalar index and the curve is cut there, but a curve with two or more
sentinel samples makes Python raise a TypeError at the slice. -/
def t2dDepthAxis (tpsRow : List QN) (yAxis timeAxis : List ℚ) :
    Except String (List QN × ℤ) :=
  match npWhere Option.isNone tpsRow with
  | [] =>
    match interp1dApply tpsRow yAxis timeAxis with
    | .error e => .error e
    | .ok depthAxis => .ok (depthAxis, (yAxis.length : ℤ) - 1)
  | [k] =>
    match interp1dApply (tpsRow.take k) (yAxis.take k) timeAxis with
    | .error e => .error e
    | .ok depthAxis => .ok (depthAxis, (k : ℤ) - 1)
  | _ => .error "only integer scalar arrays can be converted to a scalar index"

/-- Second stage of a `time2depth` event (lines 641-649): keep the time
samples whose depth value is defined; an empty valid set, or a maximal valid
index exceeding the trace length, contributes an all-zero depth profile
(`continue` in the source, with the row left at its zero initialisation);
otherwise the amplitudes at the valid time samples are interpolated onto the
output depth grid. -/
def t2dAmps (depthAxis : List QN) (amps yAxis : List ℚ) :
    Except String (List QN) :=
  let vIdx := idxWhereSome depthAxis
  if vIdx.isEmpty then .ok (List.replicate yAxis.length (some 0))
  else if amps.length < maxNat vIdx then
    .ok (List.replicate yAxis.length (some 0))
  else
    interp1dApply ((depthAxis.filterMap id).map some)
      (vIdx.filterMap (fun i => amps[i]?)) yAxis

/-- One event of `time2depth`: the two stages in sequence. -/
def time2depthEvent (tpsRow : List QN) (amps yAxis timeAxis : List ℚ) :
    Except String (List QN × ℤ) :=
  match t2dDepthAxis tpsRow yAxis timeAxis with
  | .error e => .error e
  | .ok (depthAxis, endIndex) =>
    match t2dAmps depthAxis amps yAxis with
    | .error e => .error e
    | .ok row => .ok (row, endIndex)

/-- The per-event loop of `time2depth`: events are processed in order; a
Python exception raised for one event aborts the whole call. -/
def t2dRows (yAxis timeAxis : List ℚ) :
    List (List QN × List ℚ) → Except String (List (List QN) × List ℤ)
  | [] => .ok ([], [])
  | (row, amps) :: rest =>
    match time2depthEvent row amps yAxis timeAxis with
    | .error e => .error e
    | .ok (r, ei) =>
      match t2dRows yAxis timeAxis rest with
      | .error e => .error e
      | .ok (rs, eis) => .ok (r :: rs, ei :: eis)

/-- Model of `time2depth` (rfcorrect.py lines 626-650).  The optional
normalization pre-step (`RFStation.normalize`, which rescales the amplitude
matrix in place) is abstracted as the function `normFn`, applied when
`normFlag` is set. -/
def time2depth (normFlag : Bool) (normFn : List (List ℚ) → List (List ℚ))
    (data : List (List ℚ)) (tps : List (List QN)) (yAxis timeAxis : List ℚ) :
    Except String (List (List QN) × List ℤ) :=
  let d := if normFlag then normFn data else data
  t2dRows yAxis timeAxis (tps.zip d)

/-! ## Extended floats and psrf_3D_migration -/

/-- numpy double values as relevant to `psrf_3D_migration`: a finite value,
positive or negative infinity, or NaN. -/
inductive EF : Type
  | fin : ℚ → EF
  | pinf : EF
  | ninf : EF
  | nan : EF
deriving DecidableEq

/-- numpy addition on extended floats. -/
def efAdd : EF → EF → EF
  | .fin a, .fin b => .fin (a + b)
  | .fin _, .pinf => .pinf
  | .fin _, .ninf => .ninf
  | .pinf, .fin _ => .pinf
  | .ninf, .fin _ => .ninf
  | .pinf, .pinf => .pinf
  | .ninf, .ninf => .ninf
  | .pinf, .ninf => .nan
  | .ninf, .pinf => .nan
  | _, _ => .nan

/-- numpy subtraction on extended floats. -/
def efSub : EF → EF → EF
  | .fin a, .fin b => .fin (a - b)
  | .fin _, .pinf => .ninf
  | .fin _, .ninf => .pinf
  | .pinf, .fin _ => .pinf
  | .ninf, .fin _ => .ninf
  | .pinf, .ninf => .pinf
  | .ninf, .pinf => .ninf
  | .pinf, .pinf => .nan
  | .ninf, .ninf => .nan
  | _, _ => .nan

/-- numpy multiplication on extended floats (`0 · ∞ = NaN`). -/
def efMul : EF → EF → EF
  | .fin a, .fin b => .fin (a * b)
  | .fin a, .pinf => if a = 0 then .nan else if 0 < a then .pinf else .ninf
  | .fin a, .ninf => if a = 0 then .nan else if 0 < a then .ninf else .pinf
  | .pinf, .fin b => if b = 0 then .nan else if 0 < b then .pinf else .ninf
  | .ninf, .fin b => if b = 0 then .nan else if 0 < b then .ninf else .pinf
  | .pinf, .pinf => .pinf
  | .pinf, .ninf => .ninf
  | .ninf, .pinf => .ninf
  | .ninf, .ninf => .pinf
  | _, _ => .nan

/-- numpy division on extended floats (`x/0 = ±∞` for `x ≠ 0`, `0/0 = NaN`,
`x/∞ = 0`, `∞/∞ = NaN`; signed zeros are not modelled, a division by zero
takes the sign of the numerator). -/
def efDiv : EF → EF → EF
  | .fin a, .fin b =>
    if b = 0 then (if a = 0 then .nan else if 0 < a then .pinf else .ninf)
    else .fin (a / b)
  | .fin _, .pinf => .fin 0
  | .fin _, .ninf => .fin 0
  | .pinf, .fin b => if 0 ≤ b then .pinf else .ninf
  | .ninf, .fin b => if 0 ≤ b then .ninf else .pinf
  | .pinf, .pinf => .nan
  | .pinf, .ninf => .nan
  | .ninf, .pinf => .nan
  | .ninf, .ninf => .nan
  | _, _ => .nan

/-- `np.isnan` on an extended float: true only for NaN (infinities are not
NaN). -/
def efIsNan : EF → Bool
  | .nan => true
  | _ => false

/-- `np.isfinite` on an extended float: true only for finite values. -/
def efIsFinite : EF → Bool
  | .fin _ => true
  | _ => false

/-- `np.cumsum` on extended floats, with running accumulator. -/
def efCumsumFrom : EF → List EF → List EF
  | _, [] => []
  | acc, x :: xs =>
    let s := efAdd acc x
    s :: efCumsumFrom s xs

/-- `np.cumsum` on extended floats. -/
def efCumsum (l : List EF) : List EF := efCumsumFrom (.fin 0) l

/-- Elementwise combination of three coordinate arrays (the `points` rows of
the source). -/
def zip3Map (f : ℚ → ℚ → ℚ → EF) : List ℚ → List ℚ → List ℚ → List EF
  | a :: as, b :: bs, c :: cs => f a b c :: zip3Map f as bs cs
  | _, _, _ => []

/-- Elementwise combination of four value arrays. -/
def zip4Map (f : EF → EF → EF → EF → EF) :
    List EF → List EF → List EF → List EF → List EF
  | a :: as, b :: bs, c :: cs, d :: ds => f a b c d :: zip4Map f as bs cs ds
  | _, _, _, _ => []

/-- One per-sample term of the migration correction (line 620):
`(dls/(cvs·(1+dvs)) − dls/cvs) − (dlp/(cvp·(1+dvp)) − dlp/cvp)`. -/
def migTerm (cvp cvs dvp dvs dlp dls : EF) : EF :=
  efSub
    (efSub (efDiv dls (efMul cvs (efAdd (.fin 1) dvs))) (efDiv dls cvs))
    (efSub (efDiv dlp (efMul cvp (efAdd (.fin 1) dvp))) (efDiv dlp cvp))

/-- The raw per-sample correction terms of one event (lines 614-620), before
the NaN replacement.  The perturbation interpolators `interpdvp` and
`interpdvs` of the external 3-D model enter as the query functions `dvpFn`
and `dvsFn` over `(depth, lat, lon)` points. -/
def migRawTerms (dvpFn dvsFn : ℚ → ℚ → ℚ → EF) (cvp cvs : EF)
    (yAxis lat_p lon_p lat_s lon_s : List ℚ) (dlp dls : List EF) : List EF :=
  zip4Map (fun a b c d => migTerm cvp cvs a b c d)
    (zip3Map dvpFn yAxis lat_p lon_p) (zip3Map dvsFn yAxis lat_s lon_s)
    dlp dls

/-- One event of `psrf_3D_migration` (lines 613-622): form the per-sample
correction terms, replace the NaN ones by zero (`tmpds[np.isnan(tmpds)] = 0`
— infinities pass through), and take the cumulative sum over depth. -/
def migEventCorrection (dvpFn dvsFn : ℚ → ℚ → ℚ → EF) (cvp cvs : EF)
    (yAxis lat_p lon_p lat_s lon_s : List ℚ) (dlp dls : List EF) : List EF :=
  efCumsum ((migRawTerms dvpFn dvsFn cvp cvs yAxis lat_p lon_p lat_s lon_s
    dlp dls).map (fun t => if efIsNan t then .fin 0 else t))

/-- Following the claim's words (C9): the replacement step zeroes **every
non-finite** per-sample term — infinities as well as NaN — before the
cumulative sum.  To be compared with `migEventCorrection`, which models the
source. -/
def migEventCorrectionClaim (dvpFn dvsFn : ℚ → ℚ → ℚ → EF) (cvp cvs : EF)
    (yAxis lat_p lon_p lat_s lon_s : List ℚ) (dlp dls : List EF) : List EF :=
  efCumsum ((migRawTerms dvpFn dvsFn cvp cvs yAxis lat_p lon_p lat_s lon_s
    dlp dls).map (fun t => if efIsFinite t then t else .fin 0))

/-- Model of `psrf_3D_migration` (rfcorrect.py lines 610-623): the 1-D
travel-time curves plus the per-event cumulative corrections.  The 3-D
perturbation model enters as the query functions `dvpFn`, `dvsFn` and its
reference velocities `cvp`, `cvs`. -/
def psrf_3D_migration (dvpFn dvsFn : ℚ → ℚ → ℚ → EF) (cvp cvs : EF)
    (pplat_s pplon_s pplat_p pplon_p : List (List ℚ))
    (rls rlp : List (List EF)) (Tpds : List (List EF)) (yAxis : List ℚ) :
    List (List EF) :=
  (List.range rlp.length).map (fun i =>
    List.zipWith efAdd (Tpds.getD i [])
      (migEventCorrection dvpFn dvsFn cvp cvs yAxis
        (pplat_p.getD i []) (pplon_p.getD i [])
        (pplat_s.getD i []) (pplon_s.getD i [])
        (rlp.getD i []) (rls.getD i [])))

/-! ## psrf_3D_raytracing -/

/-- `np.diff` on rationals. -/
def diffQ : List ℚ → List ℚ
  | a :: b :: rest => (b - a) :: diffQ (b :: rest)
  | _ => []

/-- `np.mean` on rationals (the source only takes it on the nonempty
difference list of the depth grid; the empty case, NaN in numpy, is mapped
to 0 and never reached under the theorems' hypotheses). -/
def meanQ (l : List ℚ) : ℚ := if l.length = 0 then 0 else l.sum / l.length

/-- `np.cumsum` on rationals, with running accumulator. -/
def cumsumQ : ℚ → List ℚ → List ℚ
  | _, [] => []
  | acc, x :: xs =>
    let s := acc + x
    s :: cumsumQ s xs

/-- Elementwise combination of four rational arrays. -/
def zipWith4Q (f : ℚ → ℚ → ℚ → ℚ → ℚ) :
    List ℚ → List ℚ → List ℚ → List ℚ → List ℚ
  | a :: as, b :: bs, c :: cs, d :: ds => f a b c d :: zipWith4Q f as bs cs ds
  | _, _, _, _ => []

/-- A Python loop that may raise: process the items in order, aborting at
the first exception. -/
def exceptMapList {α β : Type} (f : α → Except String β) :
    List α → Except String (List β)
  | [] => .ok []
  | x :: xs =>
    match f x with
    | .error e => .error e
    | .ok y =>
      match exceptMapList f xs with
      | .error e => .error e
      | .ok ys => .ok (y :: ys)

/-- The external collaborators used by the 3-D ray tracer, modelled as
abstract query functions (the structural claims below hold for every
instantiation): the geographic helpers of `seispy.geo` (`tand`, `asind`,
`latlon_from` as a map from angular distance to a coordinate pair, `km2deg`,
`srad2skm`), `np.sqrt` on the travel-time integrand (`rsqrt`), and the
trilinear interpolation of the 3-D velocity model
(`scipy.interpolate.interpn` with flat fill, `vsAt`/`vpAt` over
`(depth, lat, lon)`). -/
structure Trace3DEnv where
  tand : ℚ → ℚ
  asind : ℚ → ℚ
  latlonFrom : ℚ → ℚ → ℚ → ℚ → ℚ × ℚ
  km2deg : ℚ → ℚ
  srad2skm : ℚ → ℚ
  rsqrt : ℚ → ℚ
  vsAt : ℚ → ℚ → ℚ → ℚ
  vpAt : ℚ → ℚ → ℚ → ℚ

/-- Per-event data of the station record consumed by the 3-D ray tracer:
station coordinates and, per event, ray parameter (s/rad), back-azimuth,
epicentral distance, event depth. -/
structure Sta3D where
  stla : ℚ
  stlo : ℚ
  rayp : List ℚ
  bazi : List ℚ
  dis : List ℚ
  evdp : List ℚ

/-- The loop state after a depth step: both legs' horizontal offsets and
conversion-point coordinates. -/
structure Trace3DState where
  xs : ℚ
  xp : ℚ
  lats : ℚ
  lons : ℚ
  latp : ℚ
  lonp : ℚ

/-- The zero state used as a read default. -/
def st3Dflt : Trace3DState := ⟨0, 0, 0, 0, 0, 0⟩

/-- One depth step of the tracing loop (lines 577-593): sample the 3-D
velocities at the start-of-step depth `dep` at each leg's current location,
advance each leg's offset by `ddepth · tand(asind(v · raypskm))` — both legs
use `raypskm`, the event's primary ray parameter converted to s/km
(`rayps[i]` in the source) — and project the new offsets to conversion-point
coordinates by great-circle projection from the station along the
back-azimuth. -/
def step3D (env : Trace3DEnv) (stla stlo bazi raypskm ddepth dep : ℚ)
    (st : Trace3DState) : (ℚ × ℚ) × Trace3DState :=
  let vs := env.vsAt dep st.lats st.lons
  let vp := env.vpAt dep st.latp st.lonp
  let xs2 := ddepth * env.tand (env.asind (vs * raypskm)) + st.xs
  let xp2 := ddepth * env.tand (env.asind (vp * raypskm)) + st.xp
  let ls := env.latlonFrom stla stlo bazi (env.km2deg xs2)
  let lp := env.latlonFrom stla stlo bazi (env.km2deg xp2)
  ((vs, vp), ⟨xs2, xp2, ls.1, ls.2, lp.1, lp.2⟩)

/-- The tracing loop over the depth steps, threading the state; each item
keeps the step's velocity samples and the state after the step. -/
def trace3DAux (env : Trace3DEnv) (stla stlo bazi raypskm ddepth : ℚ) :
    Trace3DState → List ℚ → List ((ℚ × ℚ) × Trace3DState)
  | _, [] => []
  | st, dep :: rest =>
    let r := step3D env stla stlo bazi raypskm ddepth dep st
    r :: trace3DAux env stla stlo bazi raypskm ddepth r.2 rest

/-- The per-event arrays produced by the tracing loop. -/
structure Trace3DEvArrays where
  x_s : List ℚ
  x_p : List ℚ
  pplat_s : List ℚ
  pplon_s : List ℚ
  pplat_p : List ℚ
  pplon_p : List ℚ
  vs : List ℚ
  vp : List ℚ

/-- One event of the tracing loop (lines 571-593): both legs start at the
station with zero offset; the loop walks the depths `grid[:-1]`; the
velocity arrays keep their zero initialisation at the last index (the loop
never writes it). -/
def trace3DEvent (env : Trace3DEnv) (stla stlo bazi raypskm ddepth : ℚ)
    (grid : List ℚ) : Trace3DEvArrays :=
  let st0 : Trace3DState := ⟨0, 0, stla, stlo, stla, stlo⟩
  let steps := trace3DAux env stla stlo bazi raypskm ddepth st0 grid.dropLast
  { x_s := 0 :: steps.map (fun r => r.2.xs)
    x_p := 0 :: steps.map (fun r => r.2.xp)
    pplat_s := stla :: steps.map (fun r => r.2.lats)
    pplon_s := stlo :: steps.map (fun r => r.2.lons)
    pplat_p := stla :: steps.map (fun r => r.2.latp)
    pplon_p := stlo :: steps.map (fun r => r.2.lonp)
    vs := steps.map (fun r => r.1.1) ++ [0]
    vp := steps.map (fun r => r.1.2) ++ [0] }

/-- The travel-time correction integrand at one depth sample (lines
594-596): `(sqrt((R/vs)² − srayp²) − sqrt((R/vp)² − rayp²)) · (ddepth/R)`,
with the secondary-phase ray parameter in the S term and the event's
primary ray parameter (`stadatar.rayp[i]`, s/rad) in the P term.  (At the
last depth sample the velocities still hold their zero initialisation, so
numpy produces non-finite values there; in this rational model division by
zero is total and no theorem depends on the values of this curve.) -/
def tpsTerm (env : Trace3DEnv) (rayp ddepth r v w srayp : ℚ) : ℚ :=
  (env.rsqrt ((r / v) ^ 2 - srayp ^ 2) - env.rsqrt ((r / w) ^ 2 - rayp ^ 2))
    * (ddepth / r)

/-- The outputs of `psrf_3D_raytracing` (its Python return value). -/
structure Trace3DOut where
  pplat_s : List (List ℚ)
  pplon_s : List (List ℚ)
  pplat_p : List (List ℚ)
  pplon_p : List (List ℚ)
  x_s : List (List ℚ)
  x_p : List (List ℚ)
  tps : List (List QN)

/-- Model of `psrf_3D_raytracing` (rfcorrect.py lines 519-599).  The body
mutates its `YAxisRange` argument in place (`YAxisRange -= elevation`,
line 540) before any event is traced and never restores it; the model
passes that state explicitly — the first component of the result is the
final contents of the caller's array.  `sraypLib` models the optional
`get_psrayp` lookup composed with the unit conversion
`skm2srad(sdeg2skm(·))`; when it is absent the event's own primary ray
parameter is used as the secondary one.  If `elevation` is non-zero each
event's accumulated correction curve is re-interpolated (strict bounds)
from the shifted grid onto the caller's original grid; if it is zero the
`tps` rows are left at their zero initialisation. -/
def psrf_3D_raytracing (env : Trace3DEnv) (sta : Sta3D)
    (sraypLib : Option (ℚ → ℚ → List ℚ → List ℚ)) (YAxisRange : List ℚ)
    (elevation : ℚ) (sphere : Bool) :
    List ℚ × Except String Trace3DOut :=
  let R : List ℚ :=
    if sphere then YAxisRange.map (fun y => 6371 - y + elevation)
    else YAxisRange.map (fun _ => 6371 + elevation)
  let dep_range := YAxisRange
  let grid := YAxisRange.map (fun y => y - elevation)
  let ddepth := meanQ (diffQ grid)
  let rayps := sta.rayp.map env.srad2skm
  let events := (List.range sta.rayp.length).map (fun i =>
    let raypI := sta.rayp.getD i 0
    let sraypsRow : List ℚ :=
      match sraypLib with
      | none => List.replicate grid.length raypI
      | some f => f (sta.dis.getD i 0) (sta.evdp.getD i 0) grid
    let ev := trace3DEvent env sta.stla sta.stlo (sta.bazi.getD i 0)
      (rayps.getD i 0) ddepth grid
    let tps_corr := cumsumQ 0
      (zipWith4Q (fun r v w sp => tpsTerm env raypI ddepth r v w sp)
        R ev.vs ev.vp sraypsRow)
    (ev, tps_corr))
  let tpsRows : Except String (List (List QN)) :=
    if elevation ≠ 0 then
      exceptMapList (fun p => interp1dStrict grid p.2 dep_range) events
    else
      .ok (events.map (fun _ => List.replicate YAxisRange.length (some 0)))
  let res : Except String Trace3DOut :=
    match tpsRows with
    | .error e => .error e
    | .ok tps =>
      .ok { pplat_s := events.map (fun p => p.1.pplat_s)
            pplon_s := events.map (fun p => p.1.pplon_s)
            pplat_p := events.map (fun p => p.1.pplat_p)
            pplon_p := events.map (fun p => p.1.pplon_p)
            x_s := events.map (fun p => p.1.x_s)
            x_p := events.map (fun p => p.1.x_p)
            tps := tps }
  (grid, res)

/-- Following the claim's words (C8): the S-leg offset advance would use the
secondary-phase ray parameter (in s/km) of the event,
`ddepth · tand(asind(vs · srayp)) + x`.  To be compared with the advance the
source computes in `step3D`, which uses the primary ray parameter for both
legs. -/
def sLegAdvanceClaim (env : Trace3DEnv) (ddepth vs srayp x : ℚ) : ℚ :=
  ddepth * env.tand (env.asind (vs * srayp)) + x

/-- A concrete environment instantiation used in witnesses and
counterexamples: identity angle helpers, a projection that keeps the
station coordinates, and a unit velocity field. -/
def envId : Trace3DEnv :=
  ⟨id, id, fun a b _ _ => (a, b), id, id, id, fun _ _ _ => 1, fun _ _ _ => 1⟩

/-- A concrete one-event station used in witnesses and counterexamples:
station at the origin, primary ray parameter 2 s/rad. -/
def staOne : Sta3D := ⟨0, 0, [2], [0], [0], [0]⟩

/-! ## Theorems -/

theorem firstIdx_lt_length {α : Type} (p : α → Bool) (l : List α) (k : ℕ)
    (h : firstIdx p l = some k) : k < l.length := by
  induction l generalizing k with
  | nil => simp [firstIdx] at h
  | cons x xs ih =>
    rw [firstIdx] at h
    simp only [List.length_cons]
    by_cases hx : p x
    · rw [if_pos hx] at h
      simp only [Option.some.injEq] at h
      omega
    · rw [if_neg hx] at h
      obtain ⟨m, hm, hmk⟩ := Option.map_eq_some'.mp h
      have := ih m hm
      omega

/-- C1 (amended): the truncation of a travel-time-difference curve is keyed
to an imaginary component **exactly equal to 1**, not to any non-zero
imaginary component.  `imag2nan` locates the first depth index whose value
has imaginary part `1`, keeps every shallower index unchanged, and marks
that index and every deeper index invalid (NaN). -/
theorem c1_imag2nan_truncates_at_imag_one (arr : List (Option Cpx)) (k : ℕ)
    (h : firstIdx isImagOne arr = some k) :
    (∀ j, j < k → (imag2nan arr)[j]? = arr[j]?) ∧
    (∀ j, k ≤ j → j < arr.length → (imag2nan arr)[j]? = some none) := by
  have hk : k < arr.length := firstIdx_lt_length _ _ _ h
  unfold imag2nan
  rw [h]
  constructor
  · intro j hj
    rw [List.getElem?_append_left (by simp; omega)]
    rw [List.getElem?_take]
    simp [hj]
  · intro j hjk hjl
    rw [List.getElem?_append_right (by simp; omega)]
    rw [List.getElem?_replicate]
    have hlen : (arr.take k).length = k := by simp; omega
    rw [hlen]
    simp
    omega

/-- C1 witness: a concrete curve whose third entry carries imaginary part 1;
the truncation theorem applies and marks index 2 invalid while index 0 is
kept. -/
theorem c1_imag2nan_truncates_at_imag_one_witness :
    firstIdx isImagOne [some ⟨3, 0⟩, some ⟨4, 0⟩, some ⟨5, 1⟩, some ⟨6, 1⟩] = some 2 ∧
    (imag2nan [some ⟨3, 0⟩, some ⟨4, 0⟩, some ⟨5, 1⟩, some ⟨6, 1⟩])[0]? =
      [some (⟨3, 0⟩ : Cpx), some ⟨4, 0⟩, some ⟨5, 1⟩, some ⟨6, 1⟩][0]? ∧
    (imag2nan [some ⟨3, 0⟩, some ⟨4, 0⟩, some ⟨5, 1⟩, some ⟨6, 1⟩])[2]? = some none :=
  ⟨by norm_num [firstIdx, isImagOne],
   (c1_imag2nan_truncates_at_imag_one _ 2 (by norm_num [firstIdx, isImagOne])).1 0
     (by norm_num),
   (c1_imag2nan_truncates_at_imag_one _ 2 (by norm_num [firstIdx, isImagOne])).2 2
     (by norm_num) (by norm_num)⟩

/-- C1 counterexample: the claim says every value carrying a **non-zero**
imaginary component is marked invalid.  The value `5 + (1/2)i` has non-zero
imaginary part, yet `imag2nan` leaves the curve unchanged — the source's test
is `np.imag(arr) == 1`, so an imaginary part of `1/2` is silently kept and
participates downstream. -/
theorem c1_counterexample :
    imag2nan [some ⟨0, 0⟩, some ⟨5, 1/2⟩] = [some ⟨0, 0⟩, some ⟨5, 1/2⟩] ∧
    (Cpx.im ⟨5, 1/2⟩ ≠ 0) := by
  norm_num [imag2nan, firstIdx, isImagOne]

theorem moCorrectEventBody_ok_length (row ref : List QN) (dataRow : List ℚ)
    (sampling shift : ℚ) (rflength stop : ℕ) (out : List QN × ℤ)
    (h : moCorrectEventBody row ref dataRow sampling shift rflength stop =
      .ok out) :
    out.1.length = rflength := by
  unfold moCorrectEventBody at h
  dsimp only at h
  · split at h
    · exact absurd h (by simp)
    · rename_i tempdata heq
      rw [Except.ok.injEq] at h
      subst h
      dsimp only
      split
      · rename_i hlt
        simp only [List.length_append, List.length_replicate]
        omega
      · rename_i hge
        simp only [List.length_take]
        omega

theorem moCorrectEvent_ok_length (row ref : List QN) (dataRow : List ℚ)
    (depN : ℕ) (sampling shift : ℚ) (rflength : ℕ) (out : List QN × ℤ)
    (h : moCorrectEvent row ref dataRow depN sampling shift rflength = .ok out) :
    out.1.length = rflength := by
  unfold moCorrectEvent at h
  split at h
  · exact moCorrectEventBody_ok_length _ _ _ _ _ _ _ _ h
  · exact moCorrectEventBody_ok_length _ _ _ _ _ _ _ _ h
  · exact absurd h (by simp)

/-- C5: every corrected amplitude row returned by `moveoutcorrect_ref` has
length exactly the station's original trace length `rflength`, regardless of
where the sample mapping was truncated (zero-padding at the far end, splicing
of the original tail, or cropping restore the length in every branch). -/
theorem c5_corrected_rows_have_trace_length (tps : List (List QN))
    (ref : List QN) (data : List (List ℚ)) (depN : ℕ) (sampling shift : ℚ)
    (rflength : ℕ) (rows : List (List QN)) (ends : List ℤ)
    (h : moveoutcorrect_ref tps ref data depN sampling shift rflength =
      .ok (rows, ends)) :
    ∀ r ∈ rows, r.length = rflength := by
  unfold moveoutcorrect_ref at h
  generalize hz : tps.zip data = evs at h
  clear hz
  induction evs generalizing rows ends with
  | nil =>
    rw [moRows] at h
    simp only [Except.ok.injEq, Prod.mk.injEq] at h
    obtain ⟨h1, _⟩ := h
    subst h1
    intro r hr
    simp at hr
  | cons ev rest ih =>
    rw [moRows] at h
    split at h
    · exact absurd h (by simp)
    · rename_i nd ei hev
      split at h
      · exact absurd h (by simp)
      · rename_i nds eis hrest
        simp only [Except.ok.injEq, Prod.mk.injEq] at h
        obtain ⟨h1, _⟩ := h
        subst h1
        intro r hr
        rcases List.mem_cons.mp hr with hr | hr
        · subst hr
          exact moCorrectEvent_ok_length _ _ _ _ _ _ _ _ hev
        · exact ih _ _ hrest r hr

/-- C5 witness: a concrete two-sample station run of `moveoutcorrect_ref`
succeeds and the length theorem applies to its output rows. -/
theorem c5_corrected_rows_have_trace_length_witness :
    moveoutcorrect_ref [[some 0, some 2]] [some 0, some 2] [[5, 7]] 2 1 1 2 =
      .ok ([[some 5, some 7]], [1]) ∧
    ∀ r ∈ [[some (5 : ℚ), some 7]], r.length = 2 := by
  constructor
  · norm_num [moveoutcorrect_ref, moRows, moCorrectEvent,
      moCorrectEventBody, npWhere, buildNewaxis, newaxisLoop, firstCross,
      firstIdx, arangeQ, arangeZ, pyInt, interp1dApply, interpAt,
      searchCount, pyGetQN, pyGet, qnAdd, qnSub, qnMul, qnDiv,
      List.range_succ]
  · exact c5_corrected_rows_have_trace_length [[some 0, some 2]]
      [some 0, some 2] [[5, 7]] 2 1 1 2 [[some 5, some 7]] [1]
      (by norm_num [moveoutcorrect_ref, moRows, moCorrectEvent,
        moCorrectEventBody, npWhere, buildNewaxis, newaxisLoop, firstCross,
        firstIdx, arangeQ, arangeZ, pyInt, interp1dApply, interpAt,
        searchCount, pyGetQN, pyGet, qnAdd, qnSub, qnMul, qnDiv,
        List.range_succ])

/-- C6 (amended): when the reference-curve crossing search comes up empty at
some output sample (the interpolation range is exhausted before the trace
ends), the event's time-axis mapping is truncated at that sample — the loop
stops and appends nothing, it does not raise.  Processing of the event then
completes normally (`.ok`) provided the event's curve carries at most one
evanescent sentinel sample (so the scalar `EndIndex` assignment of line 366
succeeds) and the truncated axis retains at least two samples without
exceeding the trace length; a curve with two or more sentinel samples makes
line 366 raise before the loop, and a truncated axis of fewer than two
samples makes the amplitude interpolation raise (`c6_counterexample`). -/
theorem c6_empty_crossing_truncates_mapping :
    (∀ (row ref : List QN) (stop : ℕ) (sampling shift : ℚ) (j : ℤ)
       (rest : List ℤ),
      firstCross row stop ((j : ℚ) * sampling - shift) = none →
      newaxisLoop row ref stop sampling shift (j :: rest) = []) ∧
    (∀ (row ref : List QN) (dataRow : List ℚ) (depN : ℕ)
       (sampling shift : ℚ) (rflength : ℕ) (stop : ℕ),
      (npWhere Option.isNone row = [] ∧ stop = depN) ∨
        npWhere Option.isNone row = [stop] →
      2 ≤ (buildNewaxis row ref stop sampling shift rflength).length →
      (buildNewaxis row ref stop sampling shift rflength).length ≤
        dataRow.length →
      ∃ out, moCorrectEvent row ref dataRow depN sampling shift rflength =
        .ok out) := by
  constructor
  · intro row ref stop sampling shift j rest hempty
    rw [newaxisLoop]
    rw [hempty]
  · intro row ref dataRow depN sampling shift rflength stop hsent h2 hle
    have hbody : ∃ out, moCorrectEventBody row ref dataRow sampling shift
        rflength stop = .ok out := by
      unfold moCorrectEventBody
      dsimp only
      have hlen : (dataRow.take
          (buildNewaxis row ref stop sampling shift rflength).length).length =
          (buildNewaxis row ref stop sampling shift rflength).length := by
        simp only [List.length_take]
        omega
      unfold interp1dApply
      rw [if_neg (by rw [hlen]; simp)]
      rw [if_neg (by omega)]
      exact ⟨_, rfl⟩
    unfold moCorrectEvent
    rcases hsent with ⟨hw, hstop⟩ | hw
    · rw [hw]
      subst hstop
      exact hbody
    · rw [hw]
      exact hbody

/-- C6 witness: a concrete empty crossing search truncates the mapping (left
conjunct), and a concrete sentinel-free event whose truncated axis keeps two
samples is processed without error (right conjunct). -/
theorem c6_empty_crossing_truncates_mapping_witness :
    newaxisLoop [some 0, some (1/2 : ℚ)] [some 0, some 1] 2 1 0 (1 :: []) = [] ∧
    ∃ out, moCorrectEvent [some 0, some 2] [some 0, some 2] [5, 7] 2 1 1 2 =
      .ok out :=
  ⟨c6_empty_crossing_truncates_mapping.1 _ _ 2 1 0 1 []
     (by norm_num [firstCross, firstIdx]),
   c6_empty_crossing_truncates_mapping.2 _ _ [5, 7] 2 1 1 2 2
     (Or.inl ⟨by norm_num [npWhere, List.range_succ], rfl⟩)
     (by norm_num [buildNewaxis, newaxisLoop, firstIdx, firstCross,
        arangeQ, arangeZ, pyInt, pyGetQN, pyGet, qnAdd, qnSub, qnMul, qnDiv,
        List.range_succ])
     (by norm_num [buildNewaxis, newaxisLoop, firstIdx, firstCross,
        arangeQ, arangeZ, pyInt, pyGetQN, pyGet, qnAdd, qnSub, qnMul, qnDiv,
        List.range_succ])⟩

/-- C6 counterexample: the claim promises that an empty crossing search never
raises and processing of subsequent events continues.  For a station with
`shift = 0` whose first event's search is empty at the very first output
sample, the truncated axis has a single sample and scipy's `interp1d`
raises, aborting the whole call — the second event (whose own mapping would
succeed) is never processed. -/
theorem c6_counterexample :
    moveoutcorrect_ref [[some 0, some (1/2)], [some 0, some 5]]
      [some 0, some 1] [[1, 2], [1, 2]] 2 1 0 2 =
      .error "x and y arrays must have at least 2 entries" := by
  norm_num [moveoutcorrect_ref, moRows, moCorrectEvent, moCorrectEventBody,
    npWhere, buildNewaxis, newaxisLoop, firstCross, firstIdx, arangeQ,
    arangeZ, pyInt, interp1dApply, interpAt, searchCount, pyGetQN, pyGet,
    qnAdd, qnSub, qnMul, qnDiv, List.range_succ]

/-- C7: when station elevation is non-zero, `xps_tps_map` re-interpolates
every curve (offsets, travel time and, when requested, ray lengths) from the
elevation-adjusted depth grid onto the unadjusted grid; a query depth out of
range below the adjusted grid maps to invalid (NaN), and one out of range
above it takes the last value as a constant extension. -/
theorem c7_elevation_reinterpolation (elevation : ℚ) (he : elevation ≠ 0)
    (depths depths_elev : List ℚ) (x_s x_p tps rls rlp : List ℚ) :
    (xps_tps_map elevation depths depths_elev x_s x_p tps rls rlp true =
      (depths.map (interpTupleLast depths_elev tps),
       depths.map (interpTupleLast depths_elev x_s),
       depths.map (interpTupleLast depths_elev x_p),
       some (depths.map (interpTupleLast depths_elev rls),
             depths.map (interpTupleLast depths_elev rlp)))) ∧
    (∀ (ys : List ℚ) (q x0 : ℚ), depths_elev.head? = some x0 → q < x0 →
      interpTupleLast depths_elev ys q = none) ∧
    (∀ (ys : List ℚ) (q x0 xl : ℚ), depths_elev.head? = some x0 →
      depths_elev.getLast? = some xl → x0 ≤ xl → xl < q →
      interpTupleLast depths_elev ys q = (ys.getLast?).map id) := by
  refine ⟨by simp [xps_tps_map, he], ?_, ?_⟩
  · intro ys q x0 hh hq
    unfold interpTupleLast
    rw [hh]
    simp only [decide_eq_true_eq]
    rw [if_pos hq]
  · intro ys q x0 xl hh hl hxx hq
    unfold interpTupleLast
    rw [hh, hl]
    simp only [decide_eq_true_eq]
    rw [if_neg (by push_neg; linarith), if_pos hq]

/-- C7 witness: a station of elevation 1 over the depth grid `[0, 10]`
(adjusted grid `[-1, 9]`); the re-interpolation theorem applies, a query
below `-1` maps to invalid, a query above `9` takes the last value. -/
theorem c7_elevation_reinterpolation_witness :
    (xps_tps_map 1 [0, 10] [-1, 9] [1, 2] [3, 4] [5, 6] [7, 8] [9, 10] true =
      ([(0 : ℚ), 10].map (interpTupleLast [-1, 9] [5, 6]),
       [(0 : ℚ), 10].map (interpTupleLast [-1, 9] [1, 2]),
       [(0 : ℚ), 10].map (interpTupleLast [-1, 9] [3, 4]),
       some ([(0 : ℚ), 10].map (interpTupleLast [-1, 9] [7, 8]),
             [(0 : ℚ), 10].map (interpTupleLast [-1, 9] [9, 10])))) ∧
    interpTupleLast [-1, 9] [5, 6] (-5) = none ∧
    interpTupleLast [-1, 9] [5, 6] 10 = (([5, 6] : List ℚ).getLast?).map id :=
  ⟨(c7_elevation_reinterpolation 1 (by norm_num) [0, 10] [-1, 9]
      [1, 2] [3, 4] [5, 6] [7, 8] [9, 10]).1,
   (c7_elevation_reinterpolation 1 (by norm_num) [0, 10] [-1, 9]
      [1, 2] [3, 4] [5, 6] [7, 8] [9, 10]).2.1 [5, 6] (-5) (-1) rfl (by norm_num),
   (c7_elevation_reinterpolation 1 (by norm_num) [0, 10] [-1, 9]
      [1, 2] [3, 4] [5, 6] [7, 8] [9, 10]).2.2 [5, 6] 10 (-1) 9 rfl rfl
      (by norm_num) (by norm_num)⟩

/-- C4 (amended): in `time2depth`, an event whose set of valid depth-axis
samples is empty, or whose maximal valid sample index exceeds the trace
length, contributes an all-zero depth profile without error (first
conjunct).  However an event that is evanescent already at depth index 0
does **not** yield a zero profile but a crash: when index 0 is the only
sentinel sample, the curve is sliced to an empty array and scipy's
`interp1d` raises (second conjunct); when the curve carries two or more
sentinel samples — as an all-invalid curve does — the slice
`TempTpds[0:StopIndex]` with the array-valued bound raises a TypeError
(third conjunct; see `c4_counterexample`). -/
theorem c4_degenerate_events_zero_profile :
    (∀ (tpsRow : List QN) (amps yAxis timeAxis : List ℚ)
       (depthAxis : List QN) (e : ℤ),
      t2dDepthAxis tpsRow yAxis timeAxis = .ok (depthAxis, e) →
      idxWhereSome depthAxis = [] ∨
        amps.length < maxNat (idxWhereSome depthAxis) →
      time2depthEvent tpsRow amps yAxis timeAxis =
        .ok (List.replicate yAxis.length (some 0), e)) ∧
    (∀ (tpsRow : List QN) (amps yAxis timeAxis : List ℚ),
      npWhere Option.isNone tpsRow = [0] →
      time2depthEvent tpsRow amps yAxis timeAxis =
        .error "x and y arrays must have at least 2 entries") ∧
    (∀ (tpsRow : List QN) (amps yAxis timeAxis : List ℚ) (k1 k2 : ℕ)
       (rest : List ℕ),
      npWhere Option.isNone tpsRow = k1 :: k2 :: rest →
      time2depthEvent tpsRow amps yAxis timeAxis =
        .error "only integer scalar arrays can be converted to a scalar index") := by
  refine ⟨?_, ?_, ?_⟩
  · intro tpsRow amps yAxis timeAxis depthAxis e h1 h2
    unfold time2depthEvent
    rw [h1]
    dsimp only
    unfold t2dAmps
    dsimp only
    rcases h2 with h2 | h2
    · rw [h2]
      simp
    · by_cases hemp : (idxWhereSome depthAxis).isEmpty
      · rw [if_pos hemp]
      · rw [if_neg hemp, if_pos h2]
  · intro tpsRow amps yAxis timeAxis h0
    unfold time2depthEvent t2dDepthAxis
    rw [h0]
    simp [interp1dApply]
  · intro tpsRow amps yAxis timeAxis k1 k2 rest h0
    unfold time2depthEvent t2dDepthAxis
    rw [h0]

/-- C4 witness: a curve entirely above the time window gives an empty valid
set and a zero profile (first conjunct); a curve whose only sample is a
sentinel raises scipy's too-few-points error (second conjunct); an
all-invalid two-sample curve raises the array-as-index TypeError (third
conjunct). -/
theorem c4_degenerate_events_zero_profile_witness :
    time2depthEvent [some 10, some 20] [1, 2] [0, 1] [0, 1] =
      .ok (List.replicate 2 (some 0), 1) ∧
    time2depthEvent [none] [1, 2] [0] [0, 1] =
      .error "x and y arrays must have at least 2 entries" ∧
    time2depthEvent [none, none] [1, 2] [0, 1] [0, 1] =
      .error "only integer scalar arrays can be converted to a scalar index" :=
  ⟨c4_degenerate_events_zero_profile.1 [some 10, some 20] [1, 2] [0, 1] [0, 1]
      [none, none] 1
      (by norm_num [t2dDepthAxis, npWhere, interp1dApply, interpAt,
        searchCount, List.range_succ])
      (Or.inl (by norm_num [idxWhereSome, entrySome, List.range_succ])),
   c4_degenerate_events_zero_profile.2.1 [none] [1, 2] [0] [0, 1]
      (by norm_num [npWhere, List.range_succ]),
   c4_degenerate_events_zero_profile.2.2 [none, none] [1, 2] [0, 1] [0, 1]
      0 1 [] (by norm_num [npWhere, List.range_succ])⟩

/-- C4 counterexample: the claim promises that an event evanescent already
at depth index 0 — an all-invalid travel-time curve — yields an all-zero
depth profile and not a crash.  Running `time2depth` on a station whose
single event has the all-invalid curve `[NaN-sentinel, NaN-sentinel]`
aborts at the array-valued slice bound of line 639 with a TypeError instead
of producing a zero row. -/
theorem c4_counterexample :
    time2depth false id [[1, 2]] [[none, none]] [0, 1] [0, 1] =
      .error "only integer scalar arrays can be converted to a scalar index" := by
  norm_num [time2depth, t2dRows, time2depthEvent, t2dDepthAxis, npWhere,
    interp1dApply, List.range_succ]

theorem efAdd_zero_right (x : EF) : efAdd x (.fin 0) = x := by
  cases x <;> simp [efAdd]

theorem efMul_one_right (x : EF) : efMul x (.fin 1) = x := by
  cases x <;> norm_num [efMul]

theorem efSub_self_cases (x : EF) : efSub x x = .fin 0 ∨ efSub x x = .nan := by
  cases x <;> simp [efSub]

theorem migTerm_zero_perturbation (cvp cvs dlp dls : EF) :
    (if efIsNan (migTerm cvp cvs (.fin 0) (.fin 0) dlp dls) then EF.fin 0
     else migTerm cvp cvs (.fin 0) (.fin 0) dlp dls) = .fin 0 := by
  unfold migTerm
  rw [show efAdd (EF.fin 1) (EF.fin 0) = EF.fin 1 from by simp [efAdd]]
  rw [efMul_one_right, efMul_one_right]
  rcases efSub_self_cases (efDiv dls cvs) with h1 | h1 <;>
    rcases efSub_self_cases (efDiv dlp cvp) with h2 | h2 <;>
      rw [h1, h2] <;> simp [efSub, efIsNan]

theorem zip3Map_mem {f : ℚ → ℚ → ℚ → EF} {a b c : List ℚ} {x : EF}
    (hx : x ∈ zip3Map f a b c) : ∃ p q r, x = f p q r := by
  induction a generalizing b c with
  | nil => simp [zip3Map] at hx
  | cons a0 as ih =>
    cases b with
    | nil => simp [zip3Map] at hx
    | cons b0 bs =>
      cases c with
      | nil => simp [zip3Map] at hx
      | cons c0 cs =>
        rw [zip3Map] at hx
        rcases List.mem_cons.mp hx with h | h
        · exact ⟨a0, b0, c0, h⟩
        · exact ih h

theorem zip4Map_mem {f : EF → EF → EF → EF → EF} {as bs cs ds : List EF}
    {x : EF} (hx : x ∈ zip4Map f as bs cs ds) :
    ∃ a ∈ as, ∃ b ∈ bs, ∃ c d, x = f a b c d := by
  induction as generalizing bs cs ds with
  | nil => simp [zip4Map] at hx
  | cons a0 ra ih =>
    cases bs with
    | nil => simp [zip4Map] at hx
    | cons b0 rb =>
      cases cs with
      | nil => simp [zip4Map] at hx
      | cons c0 rc =>
        cases ds with
        | nil => simp [zip4Map] at hx
        | cons d0 rd =>
          rw [zip4Map] at hx
          rcases List.mem_cons.mp hx with h | h
          · exact ⟨a0, List.mem_cons_self _ _, b0, List.mem_cons_self _ _,
              c0, d0, h⟩
          · obtain ⟨a, ha, b, hb, c, d, hcd⟩ := ih h
            exact ⟨a, List.mem_cons_of_mem _ ha, b, List.mem_cons_of_mem _ hb,
              c, d, hcd⟩

theorem zip3Map_length (f : ℚ → ℚ → ℚ → EF) (a b c : List ℚ) :
    (zip3Map f a b c).length = min a.length (min b.length c.length) := by
  induction a generalizing b c with
  | nil => simp [zip3Map]
  | cons a0 as ih =>
    cases b with
    | nil => simp [zip3Map]
    | cons b0 bs =>
      cases c with
      | nil => simp [zip3Map]
      | cons c0 cs =>
        rw [zip3Map]
        simp only [List.length_cons, ih]
        omega

theorem zip4Map_length (f : EF → EF → EF → EF → EF) (as bs cs ds : List EF) :
    (zip4Map f as bs cs ds).length =
      min as.length (min bs.length (min cs.length ds.length)) := by
  induction as generalizing bs cs ds with
  | nil => simp [zip4Map]
  | cons a0 ra ih =>
    cases bs with
    | nil => simp [zip4Map]
    | cons b0 rb =>
      cases cs with
      | nil => simp [zip4Map]
      | cons c0 rc =>
        cases ds with
        | nil => simp [zip4Map]
        | cons d0 rd =>
          rw [zip4Map]
          simp only [List.length_cons, ih]
          omega

theorem efCumsumFrom_replicate_zero (n : ℕ) :
    efCumsumFrom (.fin 0) (List.replicate n (.fin 0)) =
      List.replicate n (.fin 0) := by
  induction n with
  | zero => simp [efCumsumFrom]
  | succ m ih =>
    rw [List.replicate_succ, efCumsumFrom]
    simp only [show efAdd (EF.fin 0) (EF.fin 0) = EF.fin 0 from by
      simp [efAdd], ih]

theorem zipWith_efAdd_replicate_zero (l : List EF) :
    List.zipWith efAdd l (List.replicate l.length (.fin 0)) = l := by
  induction l with
  | nil => simp
  | cons x xs ih =>
    simp only [List.length_cons, List.replicate_succ, List.zipWith_cons_cons,
      efAdd_zero_right, ih]

theorem migEventCorrection_flat_field (dvpFn dvsFn : ℚ → ℚ → ℚ → EF)
    (cvp cvs : EF) (yAxis lat_p lon_p lat_s lon_s : List ℚ)
    (dlp dls : List EF)
    (hp : ∀ d la lo, dvpFn d la lo = .fin 0)
    (hs : ∀ d la lo, dvsFn d la lo = .fin 0) :
    migEventCorrection dvpFn dvsFn cvp cvs yAxis lat_p lon_p lat_s lon_s
      dlp dls =
    List.replicate (migRawTerms dvpFn dvsFn cvp cvs yAxis lat_p lon_p lat_s
      lon_s dlp dls).length (.fin 0) := by
  unfold migEventCorrection
  have hmap : (migRawTerms dvpFn dvsFn cvp cvs yAxis lat_p lon_p lat_s lon_s
      dlp dls).map (fun t => if efIsNan t then EF.fin 0 else t) =
      List.replicate (migRawTerms dvpFn dvsFn cvp cvs yAxis lat_p lon_p lat_s
        lon_s dlp dls).length (.fin 0) := by
    refine List.eq_replicate_iff.mpr ⟨by simp, ?_⟩
    intro b hb
    rcases List.mem_map.mp hb with ⟨t, ht, rfl⟩
    unfold migRawTerms at ht
    obtain ⟨a, ha, b', hb', c, d, rfl⟩ := zip4Map_mem ht
    obtain ⟨p1, q1, r1, rfl⟩ := zip3Map_mem ha
    obtain ⟨p2, q2, r2, rfl⟩ := zip3Map_mem hb'
    rw [hp p1 q1 r1, hs p2 q2 r2]
    exact migTerm_zero_perturbation cvp cvs c d
  rw [hmap]
  exact efCumsumFrom_replicate_zero _

/-- C3: if the 3-D perturbation field returns zero fractional P and S
velocity perturbation at every queried ray-path coordinate, the migration
corrector's cumulative correction vanishes and `psrf_3D_migration` returns
the input 1-D travel-time curves unchanged (the per-event arrays all share
the depth-grid length). -/
theorem c3_flat_field_returns_input_curves (dvpFn dvsFn : ℚ → ℚ → ℚ → EF)
    (cvp cvs : EF) (pplat_s pplon_s pplat_p pplon_p : List (List ℚ))
    (rls rlp : List (List EF)) (Tpds : List (List EF)) (yAxis : List ℚ)
    (hp : ∀ d la lo, dvpFn d la lo = .fin 0)
    (hs : ∀ d la lo, dvsFn d la lo = .fin 0)
    (hT : Tpds.length = rlp.length)
    (hlen : ∀ i, i < rlp.length →
      (pplat_p.getD i []).length = yAxis.length ∧
      (pplon_p.getD i []).length = yAxis.length ∧
      (pplat_s.getD i []).length = yAxis.length ∧
      (pplon_s.getD i []).length = yAxis.length ∧
      (rlp.getD i []).length = yAxis.length ∧
      (rls.getD i []).length = yAxis.length ∧
      (Tpds.getD i []).length = yAxis.length) :
    psrf_3D_migration dvpFn dvsFn cvp cvs pplat_s pplon_s pplat_p pplon_p
      rls rlp Tpds yAxis = Tpds := by
  unfold psrf_3D_migration
  apply List.ext_getElem
  · simp [hT]
  · intro i h1 h2
    simp only [List.getElem_map, List.getElem_range]
    have hi : i < rlp.length := by simpa using h1
    obtain ⟨e1, e2, e3, e4, e5, e6, e7⟩ := hlen i hi
    rw [migEventCorrection_flat_field dvpFn dvsFn cvp cvs yAxis _ _ _ _ _ _
      hp hs]
    have hraw : (migRawTerms dvpFn dvsFn cvp cvs yAxis (pplat_p.getD i [])
        (pplon_p.getD i []) (pplat_s.getD i []) (pplon_s.getD i [])
        (rlp.getD i []) (rls.getD i [])).length = yAxis.length := by
      unfold migRawTerms
      rw [zip4Map_length, zip3Map_length, zip3Map_length, e1, e2, e3, e4,
        e5, e6]
      omega
    have hTd : Tpds.getD i [] = Tpds[i] := List.getD_eq_getElem Tpds [] h2
    rw [hraw, ← e7, hTd]
    exact zipWith_efAdd_replicate_zero _

/-- C3 witness: a one-event, one-depth-sample configuration with an
identically zero perturbation field; the corrector returns the input curve
`[[5]]`. -/
theorem c3_flat_field_returns_input_curves_witness :
    psrf_3D_migration (fun _ _ _ => .fin 0) (fun _ _ _ => .fin 0)
      (.fin 2) (.fin 3) [[0]] [[0]] [[0]] [[0]] [[.fin 1]] [[.fin 1]]
      [[.fin 5]] [0] = [[.fin 5]] :=
  c3_flat_field_returns_input_curves (fun _ _ _ => .fin 0)
    (fun _ _ _ => .fin 0) (.fin 2) (.fin 3) [[0]] [[0]] [[0]] [[0]]
    [[.fin 1]] [[.fin 1]] [[.fin 5]] [0]
    (fun _ _ _ => rfl) (fun _ _ _ => rfl) (by norm_num)
    (by
      intro i hi
      have h0 : i = 0 := by
        simp at hi
        omega
      subst h0
      norm_num [List.getD])

/-- C9 (amended): the replacement step of the migration corrector zeroes
exactly the NaN per-sample terms (`np.isnan`); infinite terms pass through
unchanged.  Whenever no raw per-sample term is infinite, this coincides with
the claimed zeroing of every non-finite term. -/
theorem c9_only_nan_terms_replaced (dvpFn dvsFn : ℚ → ℚ → ℚ → EF)
    (cvp cvs : EF) (yAxis lat_p lon_p lat_s lon_s : List ℚ)
    (dlp dls : List EF)
    (hfin : ∀ t ∈ migRawTerms dvpFn dvsFn cvp cvs yAxis lat_p lon_p lat_s
      lon_s dlp dls, t ≠ .pinf ∧ t ≠ .ninf) :
    migEventCorrection dvpFn dvsFn cvp cvs yAxis lat_p lon_p lat_s lon_s
      dlp dls =
    migEventCorrectionClaim dvpFn dvsFn cvp cvs yAxis lat_p lon_p lat_s
      lon_s dlp dls := by
  unfold migEventCorrection migEventCorrectionClaim
  congr 1
  apply List.map_congr_left
  intro t ht
  rcases hfin t ht with ⟨h1, h2⟩
  cases t with
  | fin a => simp [efIsNan, efIsFinite]
  | pinf => exact absurd rfl h1
  | ninf => exact absurd rfl h2
  | nan => simp [efIsNan, efIsFinite]

/-- C9 witness: a one-sample event whose raw correction term is NaN (the
S-leg ray length is NaN) and thus not infinite; the source replacement and
the claimed replacement agree. -/
theorem c9_only_nan_terms_replaced_witness :
    migEventCorrection (fun _ _ _ => .fin 0) (fun _ _ _ => .fin 0)
      (.fin 1) (.fin 1) [0] [0] [0] [0] [0] [.fin 0] [.nan] =
    migEventCorrectionClaim (fun _ _ _ => .fin 0) (fun _ _ _ => .fin 0)
      (.fin 1) (.fin 1) [0] [0] [0] [0] [0] [.fin 0] [.nan] :=
  c9_only_nan_terms_replaced (fun _ _ _ => .fin 0) (fun _ _ _ => .fin 0)
    (.fin 1) (.fin 1) [0] [0] [0] [0] [0] [.fin 0] [.nan]
    (by
      intro t ht
      norm_num [migRawTerms, zip3Map, zip4Map, migTerm, efAdd, efMul,
        efDiv, efSub] at ht
      subst ht
      exact ⟨by simp, by simp⟩)

/-- C9 counterexample: the claim says every non-finite per-sample term — NaN
or infinite — is replaced by zero before the cumulative sum.  With a −100%
S-velocity perturbation (`dvs = −1`) the S-leg term is `+∞`; `np.isnan` does
not catch it, the infinity survives the cumulative sum, and the returned
curve is `[[+∞]]` where the claimed replacement would give `[[0]]`. -/
theorem c9_counterexample :
    psrf_3D_migration (fun _ _ _ => .fin 0) (fun _ _ _ => .fin (-1))
      (.fin 1) (.fin 1) [[0]] [[0]] [[0]] [[0]] [[.fin 1]] [[.fin 1]]
      [[.fin 0]] [0] = [[.pinf]] ∧
    migEventCorrectionClaim (fun _ _ _ => .fin 0) (fun _ _ _ => .fin (-1))
      (.fin 1) (.fin 1) [0] [0] [0] [0] [0] [.fin 1] [.fin 1] = [.fin 0] ∧
    EF.pinf ≠ EF.fin 0 := by
  have hraw : migRawTerms (fun _ _ _ => .fin 0) (fun _ _ _ => .fin (-1))
      (.fin 1) (.fin 1) [0] [0] [0] [0] [0] [.fin 1] [.fin 1] = [.pinf] := by
    norm_num [migRawTerms, zip3Map, zip4Map, migTerm, efAdd, efMul, efDiv,
      efSub]
  refine ⟨?_, ?_, by simp⟩
  · have hcorr : migEventCorrection (fun _ _ _ => .fin 0)
        (fun _ _ _ => .fin (-1)) (.fin 1) (.fin 1) [0] [0] [0] [0] [0]
        [.fin 1] [.fin 1] = [.pinf] := by
      rw [migEventCorrection, hraw]
      norm_num [efCumsum, efCumsumFrom, efAdd, efIsNan]
    rw [psrf_3D_migration]
    norm_num [List.range_succ, List.getD, hcorr, efAdd]
  · rw [migEventCorrectionClaim, hraw]
    norm_num [efCumsum, efCumsumFrom, efAdd, efIsFinite]

/-- C10: `psrf_3D_raytracing` mutates the caller-supplied depth grid array
in place: on return the array holds the input values decremented by the
elevation (line 540, `YAxisRange -= elevation`), and it is not restored
before return — for a non-zero elevation and nonempty grid the caller's
array differs from its original contents as a side effect of the call. -/
theorem c10_grid_mutated_in_place (env : Trace3DEnv) (sta : Sta3D)
    (sraypLib : Option (ℚ → ℚ → List ℚ → List ℚ)) (YAxisRange : List ℚ)
    (elevation : ℚ) (sphere : Bool) :
    (psrf_3D_raytracing env sta sraypLib YAxisRange elevation sphere).1 =
      YAxisRange.map (fun y => y - elevation) ∧
    (elevation ≠ 0 → YAxisRange ≠ [] →
      (psrf_3D_raytracing env sta sraypLib YAxisRange elevation sphere).1 ≠
        YAxisRange) := by
  have h1 : (psrf_3D_raytracing env sta sraypLib YAxisRange elevation
      sphere).1 = YAxisRange.map (fun y => y - elevation) := rfl
  refine ⟨h1, ?_⟩
  intro he hne heq
  rw [h1] at heq
  cases YAxisRange with
  | nil => exact hne rfl
  | cons y ys =>
    rw [List.map_cons] at heq
    have hy : y - elevation = y := by
      have := List.head_eq_of_cons_eq heq
      exact this
    apply he
    linarith

/-- C10 witness: a station of elevation 1 called on the grid `[0, 1, 2]`;
on return the caller's array holds `[-1, 0, 1]`, not its original
contents. -/
theorem c10_grid_mutated_in_place_witness :
    (psrf_3D_raytracing envId staOne none [0, 1, 2] 1 true).1 = [-1, 0, 1] ∧
    (psrf_3D_raytracing envId staOne none [0, 1, 2] 1 true).1 ≠ [0, 1, 2] :=
  ⟨by
    rw [(c10_grid_mutated_in_place envId staOne none [0, 1, 2] 1 true).1]
    norm_num,
   (c10_grid_mutated_in_place envId staOne none [0, 1, 2] 1 true).2
    (by norm_num) (by simp)⟩

theorem interp1dStrict_above_not_ok (xs ys qs : List ℚ) (q xl : ℚ)
    (hmem : q ∈ qs) (hlast : xs.getLast? = some xl) (hq : xl < q)
    (r : List QN) : interp1dStrict xs ys qs ≠ .ok r := by
  unfold interp1dStrict
  split_ifs with h1 h2 h3 h4
  · simp
  · simp
  · simp
  · simp
  · exfalso
    apply h4
    refine List.any_eq_true.mpr ⟨q, hmem, ?_⟩
    rw [hlast]
    simpa using hq

theorem interp1dStrict_below_not_ok (xs ys qs : List ℚ) (q x0 : ℚ)
    (hmem : q ∈ qs) (hhead : xs.head? = some x0) (hq : q < x0)
    (r : List QN) : interp1dStrict xs ys qs ≠ .ok r := by
  unfold interp1dStrict
  split_ifs with h1 h2 h3 h4
  · simp
  · simp
  · simp
  · simp
  · exfalso
    apply h3
    refine List.any_eq_true.mpr ⟨q, hmem, ?_⟩
    rw [hhead]
    simpa using hq

theorem interp1dStrict_shifted_grid_not_ok (YAxisRange : List ℚ)
    (elevation : ℚ) (he : elevation ≠ 0) (hne : YAxisRange ≠ [])
    (ys : List ℚ) (r : List QN) :
    interp1dStrict (YAxisRange.map (fun y => y - elevation)) ys YAxisRange ≠
      .ok r := by
  rcases lt_or_gt_of_ne he with hlt | hgt
  · exact interp1dStrict_below_not_ok _ _ _ (YAxisRange.head hne)
      (YAxisRange.head hne - elevation) (List.head_mem hne)
      (by rw [List.head?_map, List.head?_eq_head hne]; rfl) (by linarith) r
  · exact interp1dStrict_above_not_ok _ _ _ (YAxisRange.getLast hne)
      (YAxisRange.getLast hne - elevation) (List.getLast_mem hne)
      (by rw [List.getLast?_map, List.getLast?_eq_getLast _ hne]; rfl)
      (by linarith) r

theorem exceptMapList_ok_head {α β : Type} (f : α → Except String β) (x : α)
    (xs : List α) (ys : List β) (h : exceptMapList f (x :: xs) = .ok ys) :
    ∃ y, f x = .ok y := by
  rw [exceptMapList] at h
  cases hfx : f x with
  | error e =>
    rw [hfx] at h
    simp at h
  | ok y => exact ⟨y, rfl⟩

/-- C2 (amended): in the 3-D ray tracer, when the station elevation is zero
the final re-interpolation does not occur and every event's travel-time
output is left at its zero-filled initialisation.  When the elevation is
non-zero the source attempts the re-interpolation onto the caller's
original depth grid with scipy's default strict bounds — but the original
grid always contains a query outside the elevation-shifted grid's range, so
the call raises instead of returning the re-interpolated curve. -/
theorem c2_zero_elevation_leaves_tps_unset (env : Trace3DEnv) (sta : Sta3D)
    (sraypLib : Option (ℚ → ℚ → List ℚ → List ℚ)) (YAxisRange : List ℚ)
    (elevation : ℚ) (sphere : Bool) :
    (elevation = 0 →
      ∃ out, (psrf_3D_raytracing env sta sraypLib YAxisRange elevation
          sphere).2 = .ok out ∧
        out.tps = List.replicate sta.rayp.length
          (List.replicate YAxisRange.length (some 0))) ∧
    (elevation ≠ 0 → YAxisRange ≠ [] → 1 ≤ sta.rayp.length →
      ((psrf_3D_raytracing env sta sraypLib YAxisRange elevation
        sphere).2).isOk = false) := by
  constructor
  · intro he
    subst he
    unfold psrf_3D_raytracing
    dsimp only
    rw [if_neg (by simp)]
    refine ⟨_, rfl, ?_⟩
    dsimp only
    refine List.eq_replicate_iff.mpr ⟨by simp, ?_⟩
    intro b hb
    rcases List.mem_map.mp hb with ⟨p, _, rfl⟩
    rfl
  · intro he hne hev
    unfold psrf_3D_raytracing
    dsimp only
    rw [if_pos he]
    obtain ⟨m, hm⟩ : ∃ m, sta.rayp.length = m + 1 :=
      ⟨sta.rayp.length - 1, by omega⟩
    rw [hm, List.range_succ_eq_map, List.map_cons]
    split
    · rfl
    · rename_i tps heq
      obtain ⟨y, hy⟩ := exceptMapList_ok_head _ _ _ _ heq
      exact absurd hy
        (interp1dStrict_shifted_grid_not_ok YAxisRange elevation he hne _ y)

/-- C2 witness: at elevation 0 the tracer returns with all travel-time rows
zero-filled; at elevation 1 (same station and grid) the call fails. -/
theorem c2_zero_elevation_leaves_tps_unset_witness :
    (∃ out, (psrf_3D_raytracing envId staOne none [0, 1, 2] 0 true).2 =
        .ok out ∧
      out.tps = List.replicate 1 (List.replicate 3 (some 0))) ∧
    ((psrf_3D_raytracing envId staOne none [0, 1, 2] 1 true).2).isOk =
      false := by
  constructor
  · have h := (c2_zero_elevation_leaves_tps_unset envId staOne none
      [0, 1, 2] 0 true).1 rfl
    simpa [staOne] using h
  · exact (c2_zero_elevation_leaves_tps_unset envId staOne none
      [0, 1, 2] 1 true).2 (by norm_num) (by simp) (by norm_num [staOne])

/-- C2 counterexample: the claim says that for non-zero elevation the
accumulated correction curve is re-interpolated onto the caller's original
depth grid.  At elevation 1 on the grid `[0, 2]`-like inputs the original
grid reaches deeper than the shifted one, the strict-bounds interpolation
raises, and the tracer returns no output at all — the re-interpolated curve
the claim promises is never produced. -/
theorem c2_counterexample :
    ((psrf_3D_raytracing envId staOne none [0, 1, 2] 1 true).2).isOk =
      false := by
  unfold psrf_3D_raytracing
  dsimp only
  rw [if_pos (by norm_num : (1 : ℚ) ≠ 0)]
  rw [show staOne.rayp.length = 0 + 1 from rfl, List.range_succ_eq_map,
    List.map_cons]
  split
  · rfl
  · rename_i tps heq
    obtain ⟨y, hy⟩ := exceptMapList_ok_head _ _ _ _ heq
    exact absurd hy (interp1dStrict_shifted_grid_not_ok [0, 1, 2] 1
      (by norm_num) (by simp) _ y)

theorem trace3DAux_length (env : Trace3DEnv)
    (stla stlo bazi raypskm ddepth : ℚ) (deps : List ℚ) :
    ∀ st : Trace3DState,
      (trace3DAux env stla stlo bazi raypskm ddepth st deps).length =
        deps.length := by
  induction deps with
  | nil => intro st; rfl
  | cons dep rest ih =>
    intro st
    rw [trace3DAux]
    rw [List.length_cons, List.length_cons, ih]

theorem trace3DAux_getD_step (env : Trace3DEnv)
    (stla stlo bazi raypskm ddepth : ℚ) (deps : List ℚ) :
    ∀ (st : Trace3DState) (j : ℕ), j < deps.length →
      (trace3DAux env stla stlo bazi raypskm ddepth st deps).getD j
          ((0, 0), st3Dflt) =
        step3D env stla stlo bazi raypskm ddepth (deps.getD j 0)
          ((st :: (trace3DAux env stla stlo bazi raypskm ddepth st
            deps).map (fun r => r.2)).getD j st3Dflt) := by
  induction deps with
  | nil =>
    intro st j hj
    simp at hj
  | cons dep rest ih =>
    intro st j hj
    rw [trace3DAux]
    cases j with
    | zero =>
      rw [List.getD_cons_zero, List.getD_cons_zero, List.getD_cons_zero]
    | succ m =>
      rw [List.getD_cons_succ, List.getD_cons_succ, List.map_cons,
        List.getD_cons_succ]
      exact ih (step3D env stla stlo bazi raypskm ddepth dep st).2 m
        (by simpa using hj)

theorem getD_map_lt {α β : Type} (f : α → β) (l : List α) (j : ℕ) (d : α)
    (d2 : β) (hj : j < l.length) : (l.map f).getD j d2 = f (l.getD j d) := by
  rw [List.getD_eq_getElem _ _ (by simpa using hj),
    List.getD_eq_getElem _ _ hj, List.getElem_map]

theorem getD_append_lt {α : Type} (l1 l2 : List α) (j : ℕ) (d : α)
    (hj : j < l1.length) : (l1 ++ l2).getD j d = l1.getD j d := by
  rw [List.getD_eq_getElem _ _ (by simp; omega),
    List.getD_eq_getElem _ _ hj, List.getElem_append_left]

theorem cons_map_getD (g : Trace3DState → ℚ) (a : Trace3DState)
    (steps : List ((ℚ × ℚ) × Trace3DState)) (j : ℕ) (ga gd : ℚ)
    (hga : ga = g a) (hgd : gd = g st3Dflt) :
    (ga :: steps.map (fun r => g r.2)).getD j gd =
      g ((a :: steps.map (fun r => r.2)).getD j st3Dflt) := by
  subst hga hgd
  cases j with
  | zero => rfl
  | succ m =>
    rw [List.getD_cons_succ, List.getD_cons_succ]
    rcases lt_or_ge m steps.length with hm | hm
    · rw [getD_map_lt (fun r => g r.2) steps m ((0, 0), st3Dflt) _ hm,
        getD_map_lt (fun r => r.2) steps m ((0, 0), st3Dflt) _ hm]
    · rw [List.getD_eq_default _ _ (by simpa using hm),
        List.getD_eq_default _ _ (by simpa using hm)]

/-- C8 (amended): in the 3-D ray tracer's depth loop, at each step and for
each leg separately, the horizontal offset advances by
`Δdepth · tand(asind(v · p))` where `v` is the velocity sampled at that
leg's current location at the start-of-step depth — but `p` is the event's
**primary** ray parameter converted to s/km (`rayps[i]`) for **both** legs;
the secondary-phase ray parameter is not used in the offset advance (it
enters only the travel-time accumulation, line 594). -/
theorem c8_offset_advance_uses_primary_rayp (env : Trace3DEnv)
    (stla stlo bazi raypskm ddepth : ℚ) (grid : List ℚ) (j : ℕ)
    (hj : j < grid.dropLast.length) :
    ((trace3DEvent env stla stlo bazi raypskm ddepth grid).x_s.getD (j + 1) 0 =
      ddepth * env.tand (env.asind
        ((trace3DEvent env stla stlo bazi raypskm ddepth grid).vs.getD j 0 *
          raypskm)) +
      (trace3DEvent env stla stlo bazi raypskm ddepth grid).x_s.getD j 0) ∧
    ((trace3DEvent env stla stlo bazi raypskm ddepth grid).x_p.getD (j + 1) 0 =
      ddepth * env.tand (env.asind
        ((trace3DEvent env stla stlo bazi raypskm ddepth grid).vp.getD j 0 *
          raypskm)) +
      (trace3DEvent env stla stlo bazi raypskm ddepth grid).x_p.getD j 0) ∧
    ((trace3DEvent env stla stlo bazi raypskm ddepth grid).vs.getD j 0 =
      env.vsAt (grid.getD j 0)
        ((trace3DEvent env stla stlo bazi raypskm ddepth grid).pplat_s.getD
          j 0)
        ((trace3DEvent env stla stlo bazi raypskm ddepth grid).pplon_s.getD
          j 0)) ∧
    ((trace3DEvent env stla stlo bazi raypskm ddepth grid).vp.getD j 0 =
      env.vpAt (grid.getD j 0)
        ((trace3DEvent env stla stlo bazi raypskm ddepth grid).pplat_p.getD
          j 0)
        ((trace3DEvent env stla stlo bazi raypskm ddepth grid).pplon_p.getD
          j 0)) := by
  have hdep : grid.dropLast.getD j 0 = grid.getD j 0 := by
    have hj2 : j < grid.length := by
      have := grid.length_dropLast
      omega
    rw [List.getD_eq_getElem _ _ hj, List.getD_eq_getElem _ _ hj2]
    exact List.getElem_dropLast _ _ _
  unfold trace3DEvent
  dsimp only
  set st0 : Trace3DState := ⟨0, 0, stla, stlo, stla, stlo⟩ with hst0
  set steps := trace3DAux env stla stlo bazi raypskm ddepth st0
    grid.dropLast with hsteps
  have hjs : j < steps.length := by
    rw [hsteps, trace3DAux_length]
    exact hj
  have hstep := trace3DAux_getD_step env stla stlo bazi raypskm ddepth
    grid.dropLast st0 j hj
  rw [← hsteps] at hstep
  rw [step3D] at hstep
  set S := (st0 :: steps.map (fun r => r.2)).getD j st3Dflt with hS
  have hvs : (steps.map (fun r : (ℚ × ℚ) × Trace3DState => r.1.1) ++ [0]).getD j 0 =
      env.vsAt (grid.dropLast.getD j 0) S.lats S.lons := by
    rw [getD_append_lt _ _ _ _ (by simpa using hjs),
      getD_map_lt (fun r : (ℚ × ℚ) × Trace3DState => r.1.1) steps j ((0, 0), st3Dflt) _ hjs, hstep]
  have hvp : (steps.map (fun r : (ℚ × ℚ) × Trace3DState => r.1.2) ++ [0]).getD j 0 =
      env.vpAt (grid.dropLast.getD j 0) S.latp S.lonp := by
    rw [getD_append_lt _ _ _ _ (by simpa using hjs),
      getD_map_lt (fun r : (ℚ × ℚ) × Trace3DState => r.1.2) steps j ((0, 0), st3Dflt) _ hjs, hstep]
  have hxs1 : (0 :: steps.map (fun r : (ℚ × ℚ) × Trace3DState => r.2.xs)).getD (j + 1) 0 =
      ddepth * env.tand (env.asind
        (env.vsAt (grid.dropLast.getD j 0) S.lats S.lons * raypskm)) +
        S.xs := by
    rw [List.getD_cons_succ,
      getD_map_lt (fun r : (ℚ × ℚ) × Trace3DState => r.2.xs) steps j ((0, 0), st3Dflt) _ hjs, hstep]
  have hxp1 : (0 :: steps.map (fun r : (ℚ × ℚ) × Trace3DState => r.2.xp)).getD (j + 1) 0 =
      ddepth * env.tand (env.asind
        (env.vpAt (grid.dropLast.getD j 0) S.latp S.lonp * raypskm)) +
        S.xp := by
    rw [List.getD_cons_succ,
      getD_map_lt (fun r : (ℚ × ℚ) × Trace3DState => r.2.xp) steps j ((0, 0), st3Dflt) _ hjs, hstep]
  have hxsj : (0 :: steps.map (fun r : (ℚ × ℚ) × Trace3DState => r.2.xs)).getD j 0 = S.xs :=
    cons_map_getD (fun s => s.xs) st0 steps j 0 0 rfl rfl
  have hxpj : (0 :: steps.map (fun r : (ℚ × ℚ) × Trace3DState => r.2.xp)).getD j 0 = S.xp :=
    cons_map_getD (fun s => s.xp) st0 steps j 0 0 rfl rfl
  have hlats : (stla :: steps.map (fun r : (ℚ × ℚ) × Trace3DState => r.2.lats)).getD j 0 = S.lats :=
    cons_map_getD (fun s => s.lats) st0 steps j stla 0 rfl rfl
  have hlons : (stlo :: steps.map (fun r : (ℚ × ℚ) × Trace3DState => r.2.lons)).getD j 0 = S.lons :=
    cons_map_getD (fun s => s.lons) st0 steps j stlo 0 rfl rfl
  have hlatp : (stla :: steps.map (fun r : (ℚ × ℚ) × Trace3DState => r.2.latp)).getD j 0 = S.latp :=
    cons_map_getD (fun s => s.latp) st0 steps j stla 0 rfl rfl
  have hlonp : (stlo :: steps.map (fun r : (ℚ × ℚ) × Trace3DState => r.2.lonp)).getD j 0 = S.lonp :=
    cons_map_getD (fun s => s.lonp) st0 steps j stlo 0 rfl rfl
  refine ⟨?_, ?_, ?_, ?_⟩
  · rw [hxs1, hvs, hxsj]
  · rw [hxp1, hvp, hxpj]
  · rw [hvs, hlats, hlons, hdep]
  · rw [hvp, hlatp, hlonp, hdep]

/-- C8 witness: the S-leg advance relation of the amended theorem at a
concrete station, grid and first depth step. -/
theorem c8_offset_advance_uses_primary_rayp_witness :
    (trace3DEvent envId 0 0 0 2 1 [0, 1, 2]).x_s.getD 1 0 =
      1 * envId.tand (envId.asind
        ((trace3DEvent envId 0 0 0 2 1 [0, 1, 2]).vs.getD 0 0 * 2)) +
      (trace3DEvent envId 0 0 0 2 1 [0, 1, 2]).x_s.getD 0 0 :=
  (c8_offset_advance_uses_primary_rayp envId 0 0 0 2 1 [0, 1, 2] 0
    (by simp)).1

/-- C8 counterexample: the claim says the S leg advances with the
secondary-phase ray parameter.  In a run whose secondary-phase ray
parameter is 3 everywhere (supplied by the ray-parameter library) while the
primary one is 2, the first S-leg offset produced by the source is
`Δdepth · tand(asind(v·2)) = 2`, not the `Δdepth · tand(asind(v·3)) = 3`
the claim's formula gives. -/
theorem c8_counterexample :
    Except.map (fun o => o.x_s.getD 0 []) (psrf_3D_raytracing envId staOne
        (some (fun _ _ g => g.map (fun _ => 3))) [0, 1, 2] 0 false).2 =
      .ok [0, 2, 4] ∧
    sLegAdvanceClaim envId 1 1 3 0 = 3 ∧ ((2 : ℚ) ≠ 3) := by
  refine ⟨?_, by norm_num [sLegAdvanceClaim, envId], by norm_num⟩
  unfold psrf_3D_raytracing
  dsimp only
  rw [if_neg (by simp)]
  dsimp only [Except.map]
  norm_num [staOne, envId, trace3DEvent, trace3DAux, step3D, meanQ,
    diffQ, List.dropLast, List.range_succ]

end Seispy
